import Mathlib

/-!
A verification development for the cortex_scaffold project scaffolder
(src/cortex_scaffold.py).  The Python source is shallowly embedded:
strings are Lean `String`s (character classes and `str.lower` are
modelled over ASCII, which is exact on every canonical-form string the
validators inspect), bytes are `Nat`s below 256, the filesystem is an
explicit list of paths, and the one environment read of the generation
layer (the license year from `datetime.now()`) is an explicit argument.
-/

/-- Python `\s` on the inputs modelled here: the six ASCII whitespace
characters space, tab, newline, carriage return, vertical tab, form feed. -/
def isPySpace (c : Char) : Bool :=
  c == ' ' || c == '\t' || c == '\n' || c == '\r' || c == '\x0b' || c == '\x0c'

/-- Python `str.lower` restricted to ASCII: map A-Z to a-z, keep the rest. -/
def py_toLower (c : Char) : Char :=
  if 65 ≤ c.toNat && c.toNat ≤ 90 then Char.ofNat (c.toNat + 32) else c

/-- A character of the class `[a-z0-9]`. -/
def isAsciiLowerDigit (c : Char) : Bool :=
  (97 ≤ c.toNat && c.toNat ≤ 122) || (48 ≤ c.toNat && c.toNat ≤ 57)

/-- A character of the class `[a-z0-9-]` kept by `to_kebab_case`. -/
def isKebabChar (c : Char) : Bool := isAsciiLowerDigit c || c == '-'

/-- A character of the class `[a-z0-9_]` kept by `to_snake_case`. -/
def isSnakeChar (c : Char) : Bool := isAsciiLowerDigit c || c == '_'

/-- `re.sub(p+, rep, s)` for a character class `p`: every maximal run of
characters satisfying `p` becomes the single character `rep`.  The flag
records whether the previous character was inside such a run. -/
def collapseRuns (p : Char → Bool) (rep : Char) : Bool → List Char → List Char
  | _, [] => []
  | inRun, c :: cs =>
    if p c then
      if inRun then collapseRuns p rep true cs
      else rep :: collapseRuns p rep true cs
    else c :: collapseRuns p rep false cs

/-- Python `str.strip(chars)`: remove the characters satisfying `p` from
both ends. -/
def trimEnds (p : Char → Bool) (l : List Char) : List Char :=
  ((l.dropWhile p).reverse.dropWhile p).reverse

/-- The five steps shared by `to_kebab_case` and `to_snake_case` in the
source: collapse runs of `pSpace` into `sep`, lowercase, keep only the
characters of `keep`, collapse runs of `sep`, strip `sep` from the ends. -/
def normChars (pSpace keep : Char → Bool) (sep : Char) (l : List Char) : List Char :=
  let step1 := collapseRuns pSpace sep false l
  let step2 := step1.map py_toLower
  let step3 := step2.filter keep
  let step4 := collapseRuns (fun c => c == sep) sep false step3
  trimEnds (fun c => c == sep) step4

/-- `to_kebab_case` of the source: runs of whitespace/underscore become a
hyphen, lowercase, keep `[a-z0-9-]`, collapse hyphen runs, strip hyphens. -/
def to_kebab_case (s : String) : String :=
  (normChars (fun c => isPySpace c || c == '_') isKebabChar '-' s.data).asString

/-- `to_snake_case` of the source: runs of whitespace/hyphen become an
underscore, lowercase, keep `[a-z0-9_]`, collapse underscore runs, strip
underscores. -/
def to_snake_case (s : String) : String :=
  (normChars (fun c => isPySpace c || c == '-') isSnakeChar '_' s.data).asString

example : to_kebab_case "My Cool API!!" = "my-cool-api" := by decide
example : to_snake_case "My Cool API!!" = "my_cool_api" := by decide
example : to_snake_case "Auth" = "auth" := by decide
example : to_kebab_case "  --a__b  " = "a-b" := by decide
example : to_snake_case "!!!" = "" := by decide

/-- No two adjacent characters of the list both satisfy `p`. -/
def NoRun (p : Char → Bool) (l : List Char) : Prop :=
  List.Chain' (fun a b => ¬(p a = true ∧ p b = true)) l

theorem collapseRuns_mem {p : Char → Bool} {rep : Char} :
    ∀ {b : Bool} {l : List Char} {c : Char},
      c ∈ collapseRuns p rep b l → c ∈ l ∨ c = rep := by
  intro b l
  induction l generalizing b with
  | nil => intro c h; simp [collapseRuns] at h
  | cons a t ih =>
    intro c h
    by_cases hp : p a = true
    · cases b with
      | true =>
        simp only [collapseRuns, hp, if_true] at h
        rcases ih h with h' | h'
        · exact Or.inl (List.mem_cons_of_mem _ h')
        · exact Or.inr h'
      | false =>
        simp only [collapseRuns, hp, if_true] at h
        rcases List.mem_cons.mp h with h' | h'
        · exact Or.inr h'
        · rcases ih h' with h'' | h''
          · exact Or.inl (List.mem_cons_of_mem _ h'')
          · exact Or.inr h''
    · simp only [collapseRuns, hp, if_false] at h
      rcases List.mem_cons.mp h with h' | h'
      · exact Or.inl (h' ▸ List.mem_cons_self _ _)
      · rcases ih h' with h'' | h''
        · exact Or.inl (List.mem_cons_of_mem _ h'')
        · exact Or.inr h''

theorem collapseRuns_eq_self {p : Char → Bool} {rep : Char} :
    ∀ {l : List Char}, (∀ c ∈ l, p c = false) → ∀ b, collapseRuns p rep b l = l := by
  intro l
  induction l with
  | nil => intro _ b; rfl
  | cons a t ih =>
    intro h b
    have ha : p a = false := h a (List.mem_cons_self _ _)
    simp only [collapseRuns, ha, Bool.false_eq_true, if_false]
    rw [ih (fun c hc => h c (List.mem_cons_of_mem _ hc)) false]

theorem collapseRuns_true_head {p : Char → Bool} {rep : Char} :
    ∀ {l : List Char} {c : Char},
      (collapseRuns p rep true l).head? = some c → p c = false := by
  intro l
  induction l with
  | nil => intro c h; simp [collapseRuns] at h
  | cons a t ih =>
    intro c h
    by_cases hp : p a = true
    · simp only [collapseRuns, hp, if_true] at h
      exact ih h
    · simp only [collapseRuns, hp, if_false, List.head?_cons] at h
      cases h
      simp only [Bool.not_eq_true] at hp
      exact hp

theorem collapseRuns_noRun {p : Char → Bool} {rep : Char} :
    ∀ (l : List Char) (b : Bool), NoRun p (collapseRuns p rep b l) := by
  intro l
  induction l with
  | nil => intro b; constructor
  | cons a t ih =>
    intro b
    by_cases hp : p a = true
    · cases b with
      | true => simpa only [collapseRuns, hp, if_true] using ih true
      | false =>
        simp only [collapseRuns, hp, if_true, Bool.false_eq_true, if_false]
        rw [NoRun, List.chain'_cons']
        refine ⟨?_, ih true⟩
        intro y hy
        intro ⟨_, hpy⟩
        exact absurd hpy (by simp [collapseRuns_true_head hy])
    · simp only [collapseRuns, hp, if_false, Bool.false_eq_true]
      rw [NoRun, List.chain'_cons']
      refine ⟨?_, ih false⟩
      intro y _
      intro ⟨hpa, _⟩
      exact hp hpa

theorem collapseRuns_id {p : Char → Bool} {rep : Char} :
    ∀ {l : List Char} {b : Bool},
      (∀ c ∈ l, p c = true → c = rep) → NoRun p l →
      (b = true → ∀ c, l.head? = some c → p c = false) →
      collapseRuns p rep b l = l := by
  intro l
  induction l with
  | nil => intro b _ _ _; rfl
  | cons a t ih =>
    intro b hall hnr hhd
    by_cases hp : p a = true
    · have hb : b = false := by
        cases b with
        | false => rfl
        | true => exact absurd hp (by simp [hhd rfl a List.head?_cons])
      subst hb
      have ha : a = rep := hall a (List.mem_cons_self _ _) hp
      simp only [collapseRuns, hp, if_true, Bool.false_eq_true, if_false]
      rw [ih (b := true) (fun c hc hpc => hall c (List.mem_cons_of_mem _ hc) hpc)
          ((List.chain'_cons'.mp hnr).2)
          (fun _ c hc => by
            have := (List.chain'_cons'.mp hnr).1 c hc
            by_contra hpc
            exact this ⟨hp, by simpa using hpc⟩), ha]
    · simp only [collapseRuns, hp, if_false, Bool.false_eq_true]
      rw [ih (b := false) (fun c hc hpc => hall c (List.mem_cons_of_mem _ hc) hpc)
          ((List.chain'_cons'.mp hnr).2)
          (fun hb => absurd hb (by decide))]

theorem head?_dropWhile {p : Char → Bool} :
    ∀ {l : List Char} {c : Char}, (l.dropWhile p).head? = some c → p c = false := by
  intro l
  induction l with
  | nil => intro c h; simp at h
  | cons a t ih =>
    intro c h
    by_cases hp : p a = true
    · rw [List.dropWhile_cons_of_pos hp] at h; exact ih h
    · rw [List.dropWhile_cons_of_neg hp, List.head?_cons] at h
      cases h; simpa using hp

theorem mem_dropWhile {p : Char → Bool} {l : List Char} {c : Char}
    (h : c ∈ l.dropWhile p) : c ∈ l :=
  (List.dropWhile_sublist p (l := l)).subset h

theorem dropWhile_eq_self {p : Char → Bool} {l : List Char}
    (h : ∀ c, l.head? = some c → p c = false) : l.dropWhile p = l := by
  cases l with
  | nil => rfl
  | cons a t => exact List.dropWhile_cons_of_neg (by simp [h a List.head?_cons])

theorem getLast?_dropWhile {p : Char → Bool} :
    ∀ {l : List Char}, l.dropWhile p ≠ [] → (l.dropWhile p).getLast? = l.getLast? := by
  intro l
  induction l with
  | nil => intro h; simp at h
  | cons a t ih =>
    intro h
    by_cases hp : p a = true
    · rw [List.dropWhile_cons_of_pos hp] at h ⊢
      rw [ih h]
      cases t with
      | nil => rw [List.dropWhile_nil] at h; exact absurd rfl h
      | cons b u => rw [List.getLast?_cons_cons]
    · rw [List.dropWhile_cons_of_neg hp]

theorem noRun_dropWhile {p q : Char → Bool} {l : List Char}
    (h : NoRun p l) : NoRun p (l.dropWhile q) := by
  induction l with
  | nil => exact h
  | cons a t ih =>
    by_cases hq : q a = true
    · rw [List.dropWhile_cons_of_pos hq]
      exact ih ((List.chain'_cons'.mp h).2)
    · rw [List.dropWhile_cons_of_neg hq]
      exact h

theorem noRun_reverse {p : Char → Bool} {l : List Char} (h : NoRun p l) :
    NoRun p l.reverse := by
  rw [NoRun, List.chain'_reverse]
  exact h.imp (fun a b hab => fun ⟨h1, h2⟩ => hab ⟨h2, h1⟩)

theorem trimEnds_mem {p : Char → Bool} {l : List Char} {c : Char}
    (h : c ∈ trimEnds p l) : c ∈ l := by
  rw [trimEnds, List.mem_reverse] at h
  have h1 := mem_dropWhile h
  rw [List.mem_reverse] at h1
  exact mem_dropWhile h1

theorem trimEnds_noRun {p q : Char → Bool} {l : List Char} (h : NoRun p l) :
    NoRun p (trimEnds q l) := by
  rw [trimEnds]
  exact noRun_reverse (noRun_dropWhile (noRun_reverse (noRun_dropWhile h)))

theorem trimEnds_head? {p : Char → Bool} {l : List Char} {c : Char}
    (h : (trimEnds p l).head? = some c) : p c = false := by
  rw [trimEnds, List.head?_reverse] at h
  by_cases hne : (l.dropWhile p).reverse.dropWhile p = []
  · rw [hne] at h; simp at h
  · rw [getLast?_dropWhile hne, List.getLast?_reverse] at h
    exact head?_dropWhile h

theorem trimEnds_getLast? {p : Char → Bool} {l : List Char} {c : Char}
    (h : (trimEnds p l).getLast? = some c) : p c = false := by
  rw [trimEnds, List.getLast?_reverse] at h
  exact head?_dropWhile h

theorem trimEnds_eq_self {p : Char → Bool} {l : List Char}
    (hh : ∀ c, l.head? = some c → p c = false)
    (hl : ∀ c, l.getLast? = some c → p c = false) : trimEnds p l = l := by
  rw [trimEnds, dropWhile_eq_self hh, dropWhile_eq_self
    (fun c hc => hl c (by rwa [List.head?_reverse] at hc)), List.reverse_reverse]

theorem trimEnds_eq_nil {p : Char → Bool} {l : List Char}
    (h : trimEnds p l = []) : ∀ c ∈ l, p c = true := by
  rw [trimEnds, List.reverse_eq_nil_iff, List.dropWhile_eq_nil_iff] at h
  have h2 : l.dropWhile p = [] := by
    cases hl : l.dropWhile p with
    | nil => rfl
    | cons d u =>
      have hpd : p d = false := head?_dropWhile (l := l) (by rw [hl]; rfl)
      have hpt : p d = true := h d (by rw [hl]; simp)
      rw [hpd] at hpt; cases hpt
  rw [List.dropWhile_eq_nil_iff] at h2
  exact h2

theorem normChars_mem {pSpace keep : Char → Bool} {sep : Char} (hks : keep sep = true)
    {l : List Char} {c : Char} (h : c ∈ normChars pSpace keep sep l) : keep c = true := by
  have h1 := trimEnds_mem h
  rcases collapseRuns_mem h1 with h2 | h2
  · exact (List.mem_filter.mp h2).2
  · rw [h2]; exact hks

theorem normChars_noRun {pSpace keep : Char → Bool} {sep : Char} (l : List Char) :
    NoRun (fun c => c == sep) (normChars pSpace keep sep l) :=
  trimEnds_noRun (collapseRuns_noRun _ false)

theorem normChars_head? {pSpace keep : Char → Bool} {sep : Char} {l : List Char} {c : Char}
    (h : (normChars pSpace keep sep l).head? = some c) : c ≠ sep := by
  have := trimEnds_head? h
  simpa using this

theorem normChars_getLast? {pSpace keep : Char → Bool} {sep : Char} {l : List Char} {c : Char}
    (h : (normChars pSpace keep sep l).getLast? = some c) : c ≠ sep := by
  have := trimEnds_getLast? h
  simpa using this

theorem map_eq_self_of {f : Char → Char} :
    ∀ {l : List Char}, (∀ c ∈ l, f c = c) → l.map f = l := by
  intro l
  induction l with
  | nil => intro _; rfl
  | cons a t ih =>
    intro h
    rw [List.map_cons, h a (List.mem_cons_self _ _),
      ih (fun c hc => h c (List.mem_cons_of_mem _ hc))]

/-- A list satisfying the three output invariants of the normalization
pipeline is left unchanged by the pipeline. -/
theorem normChars_eq_self {pSpace keep : Char → Bool} {sep : Char}
    (hsp : ∀ c, keep c = true → pSpace c = false)
    (hlo : ∀ c, keep c = true → py_toLower c = c)
    {l : List Char}
    (hmem : ∀ c ∈ l, keep c = true)
    (hnr : NoRun (fun c => c == sep) l)
    (hh : ∀ c, l.head? = some c → c ≠ sep)
    (hl : ∀ c, l.getLast? = some c → c ≠ sep) :
    normChars pSpace keep sep l = l := by
  rw [normChars]
  have s1 : collapseRuns pSpace sep false l = l :=
    collapseRuns_eq_self (fun c hc => hsp c (hmem c hc)) false
  have s2 : l.map py_toLower = l :=
    map_eq_self_of (fun c hc => hlo c (hmem c hc))
  have s3 : l.filter keep = l := by
    rw [List.filter_eq_self]
    exact hmem
  have s4 : collapseRuns (fun c => c == sep) sep false l = l :=
    collapseRuns_id (fun c _ hc => by simpa using hc) hnr (fun hb => absurd hb (by decide))
  simp only [s1, s2, s3, s4]
  exact trimEnds_eq_self
    (fun c hc => by simpa using hh c hc)
    (fun c hc => by simpa using hl c hc)

theorem data_asString (l : List Char) : (List.asString l).data = l := rfl

theorem isAsciiLowerDigit_toNat {c : Char} (h : isAsciiLowerDigit c = true) :
    (97 ≤ c.toNat ∧ c.toNat ≤ 122) ∨ (48 ≤ c.toNat ∧ c.toNat ≤ 57) := by
  simpa [isAsciiLowerDigit, Bool.or_eq_true, Bool.and_eq_true,
    decide_eq_true_eq] using h

theorem kebab_keep_not_space {c : Char} (h : isKebabChar c = true) :
    (isPySpace c || c == '_') = false := by
  simp only [isKebabChar, Bool.or_eq_true, beq_iff_eq] at h
  rcases h with h | rfl
  · rcases isAsciiLowerDigit_toNat h with ⟨h1, h2⟩ | ⟨h1, h2⟩ <;>
    · simp only [isPySpace, Bool.or_eq_false_iff, beq_eq_false_iff_ne]
      repeat' constructor
      all_goals intro e; subst e; revert h1 h2; decide
  · decide

theorem kebab_keep_lower {c : Char} (h : isKebabChar c = true) :
    py_toLower c = c := by
  simp only [isKebabChar, Bool.or_eq_true, beq_iff_eq] at h
  rcases h with h | rfl
  · rcases isAsciiLowerDigit_toNat h with ⟨h1, h2⟩ | ⟨h1, h2⟩ <;>
    · rw [py_toLower, if_neg]
      simp only [Bool.and_eq_true, decide_eq_true_eq, not_and]
      omega
  · decide

theorem snake_keep_not_space {c : Char} (h : isSnakeChar c = true) :
    (isPySpace c || c == '-') = false := by
  simp only [isSnakeChar, Bool.or_eq_true, beq_iff_eq] at h
  rcases h with h | rfl
  · rcases isAsciiLowerDigit_toNat h with ⟨h1, h2⟩ | ⟨h1, h2⟩ <;>
    · simp only [isPySpace, Bool.or_eq_false_iff, beq_eq_false_iff_ne]
      repeat' constructor
      all_goals intro e; subst e; revert h1 h2; decide
  · decide

theorem snake_keep_lower {c : Char} (h : isSnakeChar c = true) :
    py_toLower c = c := by
  simp only [isSnakeChar, Bool.or_eq_true, beq_iff_eq] at h
  rcases h with h | rfl
  · rcases isAsciiLowerDigit_toNat h with ⟨h1, h2⟩ | ⟨h1, h2⟩ <;>
    · rw [py_toLower, if_neg]
      simp only [Bool.and_eq_true, decide_eq_true_eq, not_and]
      omega
  · decide

/-- The three output invariants of `to_kebab_case`: only `[a-z0-9-]`
characters, no two adjacent hyphens, no leading or trailing hyphen. -/
theorem to_kebab_case_invariant (s : String) :
    (∀ c ∈ (to_kebab_case s).data, isKebabChar c = true) ∧
    NoRun (fun c => c == '-') (to_kebab_case s).data ∧
    (∀ c, (to_kebab_case s).data.head? = some c → c ≠ '-') ∧
    (∀ c, (to_kebab_case s).data.getLast? = some c → c ≠ '-') := by
  rw [to_kebab_case, data_asString]
  exact ⟨fun c hc => normChars_mem (by decide) hc, normChars_noRun _,
    fun c hc => normChars_head? hc, fun c hc => normChars_getLast? hc⟩

/-- The three output invariants of `to_snake_case`. -/
theorem to_snake_case_invariant (s : String) :
    (∀ c ∈ (to_snake_case s).data, isSnakeChar c = true) ∧
    NoRun (fun c => c == '_') (to_snake_case s).data ∧
    (∀ c, (to_snake_case s).data.head? = some c → c ≠ '_') ∧
    (∀ c, (to_snake_case s).data.getLast? = some c → c ≠ '_') := by
  rw [to_snake_case, data_asString]
  exact ⟨fun c hc => normChars_mem (by decide) hc, normChars_noRun _,
    fun c hc => normChars_head? hc, fun c hc => normChars_getLast? hc⟩

/-- C5: both normalization transforms are idempotent on every string. -/
theorem to_kebab_to_snake_idempotent (s : String) :
    to_kebab_case (to_kebab_case s) = to_kebab_case s ∧
    to_snake_case (to_snake_case s) = to_snake_case s := by
  constructor
  · obtain ⟨hmem, hnr, hh, hl⟩ := to_kebab_case_invariant s
    show (normChars _ _ _ (to_kebab_case s).data).asString = to_kebab_case s
    rw [normChars_eq_self (fun c hc => kebab_keep_not_space hc)
      (fun c hc => kebab_keep_lower hc) hmem hnr hh hl]
    cases hs : to_kebab_case s
    rfl
  · obtain ⟨hmem, hnr, hh, hl⟩ := to_snake_case_invariant s
    show (normChars _ _ _ (to_snake_case s).data).asString = to_snake_case s
    rw [normChars_eq_self (fun c hc => snake_keep_not_space hc)
      (fun c hc => snake_keep_lower hc) hmem hnr hh hl]
    cases hs : to_snake_case s
    rfl

/-- Python 3's `keyword.kwlist`, the set behind `keyword.iskeyword`. -/
def python_keywords : List String :=
  ["False", "None", "True", "and", "as", "assert", "async", "await",
   "break", "class", "continue", "def", "del", "elif", "else", "except",
   "finally", "for", "from", "global", "if", "import", "in", "is",
   "lambda", "nonlocal", "not", "or", "pass", "raise", "return", "try",
   "while", "with", "yield"]

/-- The curated `reserved_names` set of `validate_module_name`. -/
def reserved_names : List String :=
  ["import", "from", "as", "if", "else", "elif", "for", "while",
   "def", "class", "return", "pass", "break", "continue", "try",
   "except", "finally", "raise", "assert", "with", "lambda",
   "yield", "del", "global", "nonlocal", "in", "is", "not", "and", "or",
   "None", "True", "False", "print", "input", "open", "file",
   "main", "init", "utils", "config", "test", "docs"]

/-- The `reserved_dirs` set of `validate_project_name`. -/
def reserved_dirs : List String :=
  [".", "..", ".git", ".venv", "venv", "env", "node_modules"]

/-- Python `str.strip()` with no argument: whitespace off both ends. -/
def py_strip (s : String) : String := (trimEnds isPySpace s.data).asString

/-- Python `str.lower()` (ASCII model, see `py_toLower`). -/
def py_lower (s : String) : String := (s.data.map py_toLower).asString

/-- Python `str.isidentifier()` over ASCII: a letter or underscore, then
letters, digits or underscores.  Exact on every `to_snake_case` output,
which is all `validate_module_name` applies it to. -/
def py_isidentifier (s : String) : Bool :=
  match s.data with
  | [] => false
  | c :: cs => (c.isAlpha || c == '_') && cs.all (fun d => d.isAlphanum || d == '_')

/-- Python `re.match(r'^[a-z0-9-]+$', s)` as a Bool. -/
def matches_kebab_pattern (s : String) : Bool :=
  !s.data.isEmpty && s.data.all isKebabChar

/-- Python `s.startswith(c)` for a single character. -/
def py_startswith (s : String) (c : Char) : Bool := s.data.head? == some c

/-- Python `s.endswith(c)` for a single character. -/
def py_endswith (s : String) (c : Char) : Bool := s.data.getLast? == some c

/-- `validate_module_name` of the source, translated guard for guard. -/
def validate_module_name (module_name : String) : Bool × Option String :=
  if module_name = "" || py_strip module_name = "" then
    (false, some "Module name cannot be empty")
  else
    let snake_name := to_snake_case module_name
    if snake_name = "" then
      (false, some ("Module name '" ++ module_name ++ "' becomes empty after processing"))
    else if snake_name.length > 50 then
      (false, some ("Module name '" ++ module_name ++ "' is too long (max 50 characters)"))
    else if snake_name.length < 1 then
      (false, some ("Module name '" ++ module_name ++ "' is too short"))
    else if !(py_isidentifier snake_name) then
      (false, some ("Module name '" ++ module_name ++
        "' is not a valid Python identifier (after conversion: '" ++ snake_name ++ "')"))
    else if snake_name ∈ python_keywords then
      (false, some ("Module name '" ++ module_name ++
        "' is a Python keyword (after conversion: '" ++ snake_name ++ "')"))
    else if py_lower snake_name ∈ reserved_names then
      (false, some ("Module name '" ++ module_name ++
        "' conflicts with reserved name (after conversion: '" ++ snake_name ++ "')"))
    else if (match snake_name.data.head? with | some c => c.isDigit | none => false) then
      (false, some ("Module name '" ++ module_name ++
        "' cannot start with a number (after conversion: '" ++ snake_name ++ "')"))
    else (true, none)

/-- The loop body of `validate_modules`: `seen` is the set of canonical
names of the valid entries processed so far, `errors` the accumulated
error list. -/
def validate_modules_go (seen errors : List String) : List String → List String
  | [] => errors
  | m :: ms =>
    let r := validate_module_name m
    if r.1 = false then
      validate_modules_go seen (errors ++ ["'" ++ m ++ "': " ++ r.2.getD ""]) ms
    else
      let snake_name := to_snake_case m
      if snake_name ∈ seen then
        validate_modules_go seen
          (errors ++ ["'" ++ m ++ "': Duplicate module name (converts to '" ++
            snake_name ++ "')"]) ms
      else
        validate_modules_go (seen ++ [snake_name]) errors ms

/-- `validate_modules` of the source. -/
def validate_modules (modules : List String) : Bool × List String :=
  let errors := validate_modules_go [] [] modules
  (errors.isEmpty, errors)

/-- `validate_project_name` of the source; `existing_dirs` models the
entries of the current working directory that `Path.exists` consults. -/
def validate_project_name (existing_dirs : List String) (project_name : String)
    (check_exists : Bool) : Bool × Option String :=
  if project_name = "" || py_strip project_name = "" then
    (false, some "Project name cannot be empty")
  else
    let kebab_name := to_kebab_case project_name
    if kebab_name = "" then
      (false, some "Project name becomes empty after processing")
    else if kebab_name.length > 50 then
      (false, some "Project name is too long (max 50 characters)")
    else if kebab_name.length < 1 then
      (false, some "Project name is too short")
    else if !(matches_kebab_pattern kebab_name) then
      (false, some ("Project name contains invalid characters (after conversion: '" ++
        kebab_name ++ "')"))
    else if py_startswith kebab_name '-' || py_endswith kebab_name '-' then
      (false, some "Project name cannot start or end with a hyphen")
    else if py_lower kebab_name ∈ reserved_dirs then
      (false, some ("Project name '" ++ project_name ++
        "' conflicts with reserved directory name"))
    else if check_exists then
      if kebab_name ∈ existing_dirs then
        (false, some ("Directory '" ++ kebab_name ++ "' already exists in current directory"))
      else (true, none)
    else (true, none)

example : validate_module_name "class" =
    (false, some "Module name 'class' is a Python keyword (after conversion: 'class')") := by
  decide
example : validate_module_name "Auth" = (true, none) := by decide
example : validate_modules ["Auth", "auth"] =
    (false, ["'auth': Duplicate module name (converts to 'auth')"]) := by decide
example : validate_modules [] = (true, []) := by decide
example : (validate_module_name "9lives").1 = false := by decide
example : validate_project_name [] "My Cool API!!" true = (true, none) := by decide
example : (validate_project_name ["my-api"] "My API" true).1 = false := by decide

theorem length_pos_of_ne_empty {s : String} (h : s ≠ "") : 0 < s.length := by
  cases s with
  | mk d =>
    cases d with
    | nil => exact absurd rfl h
    | cons a t => simp [String.length]

theorem collapseRuns_all_true {p : Char → Bool} {rep : Char} :
    ∀ {l : List Char}, (∀ c ∈ l, p c = true) → collapseRuns p rep true l = [] := by
  intro l
  induction l with
  | nil => intro _; rfl
  | cons a t ih =>
    intro h
    simp only [collapseRuns, h a (List.mem_cons_self _ _), if_true]
    exact ih (fun c hc => h c (List.mem_cons_of_mem _ hc))

/-- An all-separator-class input normalizes to the empty list: the first
substitution leaves at most one separator and the final strip removes it. -/
theorem normChars_blank {pSpace keep : Char → Bool} {sep : Char}
    (hlow : py_toLower sep = sep) (hkeep : keep sep = true)
    {l : List Char} (h : ∀ c ∈ l, pSpace c = true) :
    normChars pSpace keep sep l = [] := by
  cases l with
  | nil => rfl
  | cons a t =>
    have s1 : collapseRuns pSpace sep false (a :: t) = [sep] := by
      simp only [collapseRuns, h a (List.mem_cons_self _ _), if_true,
        Bool.false_eq_true, if_false]
      rw [collapseRuns_all_true (fun c hc => h c (List.mem_cons_of_mem _ hc))]
    simp only [normChars]
    rw [s1]
    have s2 : List.map py_toLower [sep] = [sep] := by
      rw [List.map_cons, List.map_nil, hlow]
    rw [s2]
    have s3 : List.filter keep [sep] = [sep] := by
      simp [List.filter, hkeep]
    rw [s3]
    have s4 : collapseRuns (fun c => c == sep) sep false [sep] = [sep] := by
      simp [collapseRuns]
    rw [s4]
    simp [trimEnds, List.dropWhile]

theorem py_strip_empty {s : String} (h : py_strip s = "") :
    ∀ c ∈ s.data, isPySpace c = true := by
  rw [py_strip] at h
  have h2 : trimEnds isPySpace s.data = [] := by
    have := congrArg String.data h
    rwa [data_asString] at this
  exact trimEnds_eq_nil h2

theorem to_snake_case_of_blank {s : String} (h : ∀ c ∈ s.data, isPySpace c = true) :
    to_snake_case s = "" := by
  rw [to_snake_case, normChars_blank (by decide) (by decide)
    (fun c hc => by rw [h c hc]; rfl)]
  rfl

/-- C9: a module name whose canonical snake_case form is a Python keyword
is rejected by `validate_module_name` with the reserved-keyword error. -/
theorem validate_module_name_keyword (m : String)
    (h : to_snake_case m ∈ python_keywords) :
    validate_module_name m =
      (false, some ("Module name '" ++ m ++ "' is a Python keyword (after conversion: '" ++
        to_snake_case m ++ "')")) := by
  have key : ∀ k ∈ python_keywords, k ≠ "" ∧ k.length ≤ 50 ∧ py_isidentifier k = true := by
    decide
  obtain ⟨hne, hlen, hid⟩ := key _ h
  have hpos := length_pos_of_ne_empty hne
  have hc1 : ¬((decide (m = "") || decide (py_strip m = "")) = true) := by
    simp only [Bool.or_eq_true, decide_eq_true_eq]
    intro hor
    rcases hor with rfl | hb
    · exact hne rfl
    · exact hne (to_snake_case_of_blank (py_strip_empty hb))
  have hc3 : ¬((to_snake_case m).length > 50) := by omega
  have hc4 : ¬((to_snake_case m).length < 1) := by omega
  have hc5 : ¬((!py_isidentifier (to_snake_case m)) = true) := by simp [hid]
  simp only [validate_module_name]
  rw [if_neg hc1, if_neg hne, if_neg hc3, if_neg hc4, if_neg hc5, if_pos h]

/-- C9 witness: the module name `class` is rejected as a keyword. -/
theorem validate_module_name_keyword_witness :
    validate_module_name "class" =
      (false, some ("Module name '" ++ "class" ++ "' is a Python keyword (after conversion: '" ++
        to_snake_case "class" ++ "')")) :=
  validate_module_name_keyword "class" (by decide)

/-- Errors accumulate: the loop of `validate_modules` only ever appends. -/
theorem validate_modules_go_acc :
    ∀ (xs seen e1 e2 : List String),
      validate_modules_go seen (e1 ++ e2) xs = e1 ++ validate_modules_go seen e2 xs := by
  intro xs
  induction xs with
  | nil => intro seen e1 e2; simp [validate_modules_go]
  | cons m ms ih =>
    intro seen e1 e2
    simp only [validate_modules_go]
    by_cases h1 : (validate_module_name m).1 = false
    · rw [if_pos h1, if_pos h1, List.append_assoc]
      exact ih seen e1 _
    · rw [if_neg h1, if_neg h1]
      by_cases h2 : to_snake_case m ∈ seen
      · rw [if_pos h2, if_pos h2, List.append_assoc]
        exact ih seen e1 _
      · rw [if_neg h2, if_neg h2]
        exact ih _ e1 e2

theorem validate_modules_go_append (xs seen errors : List String) :
    validate_modules_go seen errors xs = errors ++ validate_modules_go seen [] xs := by
  have h := validate_modules_go_acc xs seen errors []
  rwa [List.append_nil] at h

theorem mem_go_of_mem_invalid :
    ∀ (xs seen : List String) (m : String), m ∈ xs →
      (validate_module_name m).1 = false →
      ("'" ++ m ++ "': " ++ (validate_module_name m).2.getD "") ∈
        validate_modules_go seen [] xs := by
  intro xs
  induction xs with
  | nil => intro seen m hm; exact absurd hm (List.not_mem_nil _)
  | cons a t ih =>
    intro seen m hm hinv
    simp only [validate_modules_go]
    rcases List.mem_cons.mp hm with rfl | hmt
    · rw [if_pos hinv, validate_modules_go_append]
      simp
    · by_cases h1 : (validate_module_name a).1 = false
      · rw [if_pos h1, validate_modules_go_append]
        exact List.mem_append_right _ (ih seen m hmt hinv)
      · rw [if_neg h1]
        by_cases h2 : to_snake_case a ∈ seen
        · rw [if_pos h2, validate_modules_go_append]
          exact List.mem_append_right _ (ih seen m hmt hinv)
        · rw [if_neg h2]
          exact ih _ m hmt hinv

/-- C6: `validate_modules` never short-circuits: every entry failing
`validate_module_name` contributes its error to the returned list, and
the overall result is then not ok. -/
theorem validate_modules_accumulates (xs : List String) (m : String)
    (hm : m ∈ xs) (hinv : (validate_module_name m).1 = false) :
    ("'" ++ m ++ "': " ++ (validate_module_name m).2.getD "") ∈ (validate_modules xs).2 ∧
    (validate_modules xs).1 = false := by
  have hmem := mem_go_of_mem_invalid xs [] m hm hinv
  refine ⟨hmem, ?_⟩
  show (validate_modules_go [] [] xs).isEmpty = false
  cases hgo : validate_modules_go [] [] xs with
  | nil => rw [hgo] at hmem; exact absurd hmem (List.not_mem_nil _)
  | cons a t => rfl

/-- C6 witness: the invalid entry `class` of the list `["class", "users"]`
contributes its error and the result is not ok. -/
theorem validate_modules_accumulates_witness :
    ("'" ++ "class" ++ "': " ++ (validate_module_name "class").2.getD "") ∈
      (validate_modules ["class", "users"]).2 ∧
    (validate_modules ["class", "users"]).1 = false :=
  validate_modules_accumulates ["class", "users"] "class" (by decide) (by decide)

/-- The duplicate-name errors the spec describes, computed from the claim's
words: scanning left to right with `prev` holding the entries already
passed, an entry whose canonical snake_case name equals that of some
earlier entry contributes exactly one duplicate error. -/
def spec_duplicate_errors (prev : List String) : List String → List String
  | [] => []
  | m :: ms =>
    (if to_snake_case m ∈ prev.map to_snake_case then
      ["'" ++ m ++ "': Duplicate module name (converts to '" ++ to_snake_case m ++ "')"]
    else []) ++ spec_duplicate_errors (prev ++ [m]) ms

theorem go_eq_spec_duplicates :
    ∀ (xs seen prev : List String),
      (∀ m ∈ xs, (validate_module_name m).1 = true) →
      (∀ s, s ∈ seen ↔ s ∈ prev.map to_snake_case) →
      validate_modules_go seen [] xs = spec_duplicate_errors prev xs := by
  intro xs
  induction xs with
  | nil => intro seen prev _ _; rfl
  | cons m ms ih =>
    intro seen prev hval hiff
    have hv : (validate_module_name m).1 = true := hval m (List.mem_cons_self _ _)
    have hvt : ∀ x ∈ ms, (validate_module_name x).1 = true :=
      fun x hx => hval x (List.mem_cons_of_mem _ hx)
    simp only [validate_modules_go, spec_duplicate_errors]
    rw [if_neg (by rw [hv]; exact fun h => absurd h (by decide))]
    by_cases h2 : to_snake_case m ∈ seen
    · rw [if_pos h2, if_pos ((hiff _).mp h2), validate_modules_go_append,
        List.nil_append, List.singleton_append, List.singleton_append]
      congr 1
      refine ih seen (prev ++ [m]) hvt (fun s => ?_)
      rw [List.map_append, List.mem_append]
      constructor
      · intro hs; exact Or.inl ((hiff s).mp hs)
      · intro hs
        rcases hs with hs | hs
        · exact (hiff s).mpr hs
        · simp only [List.map_cons, List.map_nil, List.mem_singleton] at hs
          rw [hs]; exact h2
    · rw [if_neg h2, if_neg (fun hc => h2 ((hiff _).mpr hc)), List.nil_append]
      refine ih (seen ++ [to_snake_case m]) (prev ++ [m]) hvt (fun s => ?_)
      rw [List.map_append, List.mem_append, List.mem_append]
      simp only [List.map_cons, List.map_nil, List.mem_singleton]
      constructor
      · intro hs
        rcases hs with hs | hs
        · exact Or.inl ((hiff s).mp hs)
        · exact Or.inr (by simpa using hs)
      · intro hs
        rcases hs with hs | hs
        · exact Or.inl ((hiff s).mpr hs)
        · exact Or.inr (by simpa using hs)

/-- C3 (amended): when every entry passes `validate_module_name`, the
errors of `validate_modules` are exactly one duplicate error per entry
whose canonical name matches an earlier entry's, and the result is ok
exactly when there is no such entry. -/
theorem validate_modules_duplicates (xs : List String)
    (h : ∀ m ∈ xs, (validate_module_name m).1 = true) :
    (validate_modules xs).2 = spec_duplicate_errors [] xs ∧
    ((validate_modules xs).1 = true ↔ spec_duplicate_errors [] xs = []) := by
  have he : validate_modules_go [] [] xs = spec_duplicate_errors [] xs :=
    go_eq_spec_duplicates xs [] [] h (fun s => by simp)
  refine ⟨he, ?_⟩
  show (validate_modules_go [] [] xs).isEmpty = true ↔ _
  rw [he, List.isEmpty_iff]

/-- C3 witness: `["Auth", "auth"]` (both entries individually valid)
yields ok=false with exactly the duplicate error for canonical form
`auth`. -/
theorem validate_modules_duplicates_witness :
    (validate_modules ["Auth", "auth"]).2 = spec_duplicate_errors [] ["Auth", "auth"] ∧
    ((validate_modules ["Auth", "auth"]).1 = true ↔
      spec_duplicate_errors [] ["Auth", "auth"] = []) ∧
    validate_modules ["Auth", "auth"] =
      (false, ["'auth': Duplicate module name (converts to 'auth')"]) :=
  ⟨(validate_modules_duplicates ["Auth", "auth"] (by decide)).1,
   (validate_modules_duplicates ["Auth", "auth"] (by decide)).2,
   by decide⟩

/-- C3 counterexample: the list `["class", "Class"]` has two entries with
the same canonical name `class`, yet no duplicate error is reported (each
entry fails the reserved-keyword check instead), refuting the claim that
every colliding entry after the first yields a duplicate error. -/
theorem validate_modules_duplicates_counterexample :
    to_snake_case "Class" = to_snake_case "class" ∧
    (validate_modules ["class", "Class"]).1 = false ∧
    (∀ e ∈ (validate_modules ["class", "Class"]).2,
      e ≠ "'Class': Duplicate module name (converts to 'class')" ∧
      e ≠ "'class': Duplicate module name (converts to 'class')") := by
  decide

/-- `generate_mit_license` of the source.  `current_year` is the
`datetime.now().year` value the function reads when `year` is `None`
(which is how `main` calls it); passing `some y` models an explicit
`year` argument. -/
def generate_mit_license (current_year : Nat) (year : Option Nat) (author : String) : String :=
  let y := year.getD current_year
  "MIT License

Copyright (c) " ++ toString y ++ " " ++ author ++ "

Permission is hereby granted, free of charge, to any person obtaining a copy
of this software and associated documentation files (the \"Software\"), to deal
in the Software without restriction, including without limitation the rights
to use, copy, modify, merge, publish, distribute, sublicense, and/or sell
copies of the Software, and to permit persons to whom the Software is
furnished to do so, subject to the following conditions:

The above copyright notice and this permission notice shall be included in all
copies or substantial portions of the Software.

THE SOFTWARE IS PROVIDED \"AS IS\", WITHOUT WARRANTY OF ANY KIND, EXPRESS OR
IMPLIED, INCLUDING BUT NOT LIMITED TO THE WARRANTIES OF MERCHANTABILITY,
FITNESS FOR A PARTICULAR PURPOSE AND NONINFRINGEMENT. IN NO EVENT SHALL THE
AUTHORS OR COPYRIGHT HOLDERS BE LIABLE FOR ANY CLAIM, DAMAGES OR OTHER
LIABILITY, WHETHER IN AN ACTION OF CONTRACT, TORT OR OTHERWISE, ARISING FROM,
OUT OF OR IN CONNECTION WITH THE SOFTWARE OR THE USE OR OTHER DEALINGS IN THE
SOFTWARE.
"

/-- C1 counterexample: with the default `year=None` (the call `main`
makes), the LICENSE text depends on the clock year, so two runs with
identical ProjectSpec inputs in different years differ byte for byte. -/
theorem generate_mit_license_clock_counterexample :
    generate_mit_license 2025 none "Your Name" ≠ generate_mit_license 2026 none "Your Name" := by
  decide

/-- C1 (amended): with an explicit year the license text does not depend
on the clock; every other generator in this embedding takes no
environment argument at all, so the clock read of the default-year
license call is the only environmental dependence of the generation
layer. -/
theorem generate_mit_license_deterministic (c1 c2 y : Nat) (a : String) :
    generate_mit_license c1 (some y) a = generate_mit_license c2 (some y) a := rfl

/-- Python `n.to_bytes(4, "little")`. -/
def le_bytes4 (n : Nat) : List Nat :=
  [n % 256, n / 256 % 256, n / 65536 % 256, n / 16777216 % 256]

/-- One pixel of the icon in BGRA order, from the fixed per-coordinate
formula of the source. -/
def favicon_pixel (x y : Nat) : List Nat :=
  [100 + (x * 3) % 50, 50 + (y * 2) % 30, 30, 255]

/-- The 16x16 pixel block in bottom-up row order. -/
def favicon_pixels : List Nat :=
  (List.range 16).reverse.flatMap fun y =>
    (List.range 16).flatMap fun x => favicon_pixel x y

/-- `generate_favicon_ico` of the source: 6-byte ICO header, one 16-byte
directory entry, a 40-byte bitmap sub-header with doubled height, the
pixel block, and the all-zero 1-bit mask. -/
def generate_favicon_ico : List Nat :=
  let width := 16
  let height := 16
  let pixel_data_size := width * height * 4
  let bmp_header_size := 40
  let total_image_size := bmp_header_size + pixel_data_size
  let header := [0, 0, 1, 0, 1, 0]
  let dir_entry := [width, height, 0, 0, 1, 0, 32, 0] ++
    le_bytes4 total_image_size ++ le_bytes4 (6 + 16)
  let bmp_header := [40, 0, 0, 0] ++ le_bytes4 width ++ le_bytes4 (height * 2) ++
    [1, 0, 32, 0] ++ [0, 0, 0, 0] ++ le_bytes4 pixel_data_size ++
    [0, 0, 0, 0] ++ [0, 0, 0, 0] ++ [0, 0, 0, 0] ++ [0, 0, 0, 0]
  let and_mask := List.replicate ((width * height + 7) / 8) 0
  header ++ dir_entry ++ bmp_header ++ favicon_pixels ++ and_mask

/-- C2: the generated icon starts with `00 00 01 00 01 00`; the 16-byte
directory entry declares width 16, height 16, planes 1, 32 bits per
pixel, image length `40 + 1024` and offset 22 (little-endian); the
embedded 40-byte bitmap sub-header declares size 40, height `2 * 16`,
32 bits per pixel and compression 0; the trailing mask is
`ceil(16*16/8) = 32` zero bytes; the total length is
`6 + 16 + 40 + 1024 + 32`. -/
theorem generate_favicon_ico_format :
    generate_favicon_ico.take 6 = [0, 0, 1, 0, 1, 0] ∧
    (generate_favicon_ico.drop 6).take 16 =
      [16, 16, 0, 0, 1, 0, 32, 0] ++ le_bytes4 (40 + 1024) ++ le_bytes4 22 ∧
    (generate_favicon_ico.drop 22).take 4 = le_bytes4 40 ∧
    (generate_favicon_ico.drop 30).take 4 = le_bytes4 (2 * 16) ∧
    (generate_favicon_ico.drop 36).take 2 = [32, 0] ∧
    (generate_favicon_ico.drop 38).take 4 = le_bytes4 0 ∧
    generate_favicon_ico.drop (6 + 16 + 40 + 1024) =
      List.replicate ((16 * 16 + 7) / 8) 0 ∧
    generate_favicon_ico.length = 6 + 16 + 40 + 1024 + 32 := by
  set_option maxRecDepth 100000 in decide

theorem isEmpty_false_of_ne_nil {α : Type} {l : List α} (h : l ≠ []) :
    l.isEmpty = false := by
  cases l with
  | nil => exact absurd rfl h
  | cons a t => rfl

/-- C10: every `to_kebab_case` output contains only `[a-z0-9-]`
characters, never starts or ends with a hyphen and never has two
adjacent hyphens; hence in `validate_project_name` the invalid-character
guard holds and the hyphen guard fails whenever the canonical form is
nonempty, so those two error branches cannot be taken. -/
theorem to_kebab_case_validator_safe (name : String) :
    (∀ c ∈ (to_kebab_case name).data, isKebabChar c = true) ∧
    NoRun (fun c => c == '-') (to_kebab_case name).data ∧
    py_startswith (to_kebab_case name) '-' = false ∧
    py_endswith (to_kebab_case name) '-' = false ∧
    (to_kebab_case name ≠ "" → matches_kebab_pattern (to_kebab_case name) = true) := by
  obtain ⟨hmem, hnr, hh, hl⟩ := to_kebab_case_invariant name
  refine ⟨hmem, hnr, ?_, ?_, ?_⟩
  · rw [py_startswith]
    cases hc : (to_kebab_case name).data.head? with
    | none => rfl
    | some c => simp [hh c hc]
  · rw [py_endswith]
    cases hc : (to_kebab_case name).data.getLast? with
    | none => rfl
    | some c => simp [hl c hc]
  · intro hne
    have hdata : (to_kebab_case name).data ≠ [] := by
      intro h0
      apply hne
      cases he : to_kebab_case name with
      | mk d =>
        rw [he] at h0
        have hd : d = [] := h0
        rw [hd]
    rw [matches_kebab_pattern, isEmpty_false_of_ne_nil hdata]
    simp only [Bool.not_false, Bool.true_and, List.all_eq_true]
    exact hmem

/-- C10 witness at the name `My Cool API!!` (canonical form
`my-cool-api`). -/
theorem to_kebab_case_validator_safe_witness :
    py_startswith (to_kebab_case "My Cool API!!") '-' = false ∧
    py_endswith (to_kebab_case "My Cool API!!") '-' = false ∧
    matches_kebab_pattern (to_kebab_case "My Cool API!!") = true :=
  ⟨(to_kebab_case_validator_safe "My Cool API!!").2.2.1,
   (to_kebab_case_validator_safe "My Cool API!!").2.2.2.1,
   (to_kebab_case_validator_safe "My Cool API!!").2.2.2.2 (by decide)⟩

/-- The directory set `main` creates for a spec, relative to the project
root (creation order of the source). -/
def built_dirs (package_name : String) (modules : List String) : List String :=
  ["config", "docs", "downloads", "test", "test/docs", package_name,
   package_name ++ "/utils"] ++ modules.map (fun m => "docs/" ++ to_snake_case m)

/-- The file set `main` writes for a spec, relative to the project root
(write order of the source). -/
def built_files (package_name : String) (modules : List String) : List String :=
  ["README.md", "NOTE_FOR_AGENTS.md", "LICENSE", ".gitignore", "requirements.txt",
   "favicon.ico", "main.py", "config/config.py", "config/config_example.py",
   package_name ++ "/__init__.py", package_name ++ "/utils/__init__.py",
   package_name ++ "/utils/logging.py"] ++
  (modules.flatMap fun m =>
    [package_name ++ "/" ++ to_snake_case m ++ ".py",
     "docs/" ++ to_snake_case m ++ "/README.md",
     "test/test_" ++ to_snake_case m ++ ".py"]) ++
  ["docs/README.md", "test/README.md", "downloads/.gitkeep"]

/-- The `required_files` list of `validate_structure`. -/
def required_files (package_name : String) (modules : List String) : List String :=
  ["README.md", "LICENSE", ".gitignore", "main.py", "requirements.txt",
   "NOTE_FOR_AGENTS.md", "favicon.ico",
   package_name ++ "/__init__.py", package_name ++ "/utils/__init__.py",
   package_name ++ "/utils/logging.py", "config/config.py",
   "config/config_example.py", "docs/README.md", "test/README.md"] ++
  (modules.flatMap fun m =>
    [package_name ++ "/" ++ to_snake_case m ++ ".py",
     "docs/" ++ to_snake_case m ++ "/README.md",
     "test/test_" ++ to_snake_case m ++ ".py"])

/-- The `required_dirs` list of `validate_structure`. -/
def required_dirs (package_name : String) (modules : List String) : List String :=
  ["config", "docs", "downloads", "test", "test/docs", package_name,
   package_name ++ "/utils"] ++ modules.map (fun m => "docs/" ++ to_snake_case m)

/-- `validate_structure` of the source, over a filesystem modelled by the
file set and directory set under the project root: `Path.exists` holds of
files and directories, `is_dir` of directories only.  The `project_name`
parameter is unused, as in the source. -/
def validate_structure (files dirs : List String) (project_name package_name : String)
    (modules : List String) : Bool × List String :=
  let missing_files := ((required_files package_name modules).filter
    (fun p => !(decide (p ∈ files) || decide (p ∈ dirs)))).map
      (fun p => "Missing: " ++ p)
  let missing_dirs := ((required_dirs package_name modules).filter
    (fun p => !(decide (p ∈ dirs)))).map (fun p => "Missing directory: " ++ p)
  let errors := missing_files ++ missing_dirs
  (errors.isEmpty, errors)

/-- Outcome of the generation path of `main`: a `sys.exit` with a message,
or a completed build with the created directory and file sets. -/
inductive MainOutcome where
  | exited (msg : String)
  | completed (dirs files : List String)
deriving DecidableEq

/-- The generation path of `main` after input collection: validate the
project name (existence check on), require a nonempty module list,
validate the modules, re-check that the target does not exist, then
create every directory and write every file.  `existing_dirs` models the
working-directory entries consulted by `Path.exists`. -/
def main_run (existing_dirs : List String) (project_name : String)
    (modules : List String) : MainOutcome :=
  let v := validate_project_name existing_dirs project_name true
  if v.1 = false then .exited (v.2.getD "")
  else if modules.isEmpty then .exited "At least one module is required."
  else
    let mv := validate_modules modules
    if mv.1 = false then .exited "Module name validation errors"
    else
      let kebab_name := to_kebab_case project_name
      let snake_package := to_snake_case project_name
      if kebab_name ∈ existing_dirs then
        .exited ("Directory '" ++ kebab_name ++ "' already exists in current directory.")
      else
        .completed (built_dirs snake_package modules) (built_files snake_package modules)

example : main_run [] "My API" ["auth"] =
    .completed (built_dirs "my_api" ["auth"]) (built_files "my_api" ["auth"]) := by decide
example : main_run ["my-api"] "My API" ["auth"] =
    .exited "Directory 'my-api' already exists in current directory" := by decide

theorem validate_project_name_exists_false (existing_dirs : List String)
    (project_name : String) (h : to_kebab_case project_name ∈ existing_dirs) :
    (validate_project_name existing_dirs project_name true).1 = false := by
  simp only [validate_project_name]
  split_ifs <;> simp_all

theorem validate_project_name_exists_error (existing_dirs : List String)
    (project_name : String) (h : to_kebab_case project_name ∈ existing_dirs)
    (hv : validate_project_name existing_dirs project_name false = (true, none)) :
    validate_project_name existing_dirs project_name true =
      (false, some ("Directory '" ++ to_kebab_case project_name ++
        "' already exists in current directory")) := by
  simp only [validate_project_name] at hv ⊢
  split_ifs at hv ⊢ <;> simp_all

/-- C7: when the target directory `kebabName` already exists, the run
stops at the existence precondition: no outcome is `completed` (nothing
is created or written), and when the name passes every other validation
the reported failure is exactly the directory-exists error. -/
theorem main_run_precondition (existing_dirs : List String) (project_name : String)
    (modules : List String) (h : to_kebab_case project_name ∈ existing_dirs) :
    (∀ d f, main_run existing_dirs project_name modules ≠ .completed d f) ∧
    (validate_project_name existing_dirs project_name false = (true, none) →
      main_run existing_dirs project_name modules =
        .exited ("Directory '" ++ to_kebab_case project_name ++
          "' already exists in current directory")) := by
  have hv := validate_project_name_exists_false existing_dirs project_name h
  constructor
  · intro d f
    simp only [main_run]
    rw [if_pos hv]
    intro hc
    cases hc
  · intro hvalid
    have hex := validate_project_name_exists_error existing_dirs project_name h hvalid
    simp [main_run, hex]

/-- C7 witness: building `My API` while `my-api` exists completes
nothing and reports the precondition error. -/
theorem main_run_precondition_witness :
    main_run ["my-api"] "My API" ["auth"] ≠
      .completed (built_dirs "my_api" ["auth"]) (built_files "my_api" ["auth"]) ∧
    main_run ["my-api"] "My API" ["auth"] =
      .exited ("Directory '" ++ to_kebab_case "My API" ++
        "' already exists in current directory") :=
  ⟨(main_run_precondition ["my-api"] "My API" ["auth"] (by decide)).1 _ _,
   (main_run_precondition ["my-api"] "My API" ["auth"] (by decide)).2 (by decide)⟩

theorem main_run_completed (existing_dirs : List String) (project_name : String)
    (modules : List String) (d f : List String)
    (h : main_run existing_dirs project_name modules = .completed d f) :
    d = built_dirs (to_snake_case project_name) modules ∧
    f = built_files (to_snake_case project_name) modules := by
  simp only [main_run] at h
  split_ifs at h <;> cases h <;> exact ⟨rfl, rfl⟩

theorem required_files_subset (package_name : String) (modules : List String) :
    ∀ p ∈ required_files package_name modules, p ∈ built_files package_name modules := by
  intro p hp
  simp only [required_files, built_files, List.mem_append, List.mem_flatMap,
    List.mem_cons, List.not_mem_nil] at hp ⊢
  rcases hp with hbase | hmod
  · tauto
  · obtain ⟨m, hm, hc⟩ := hmod
    exact Or.inl (Or.inr ⟨m, hm, hc⟩)

theorem required_dirs_eq_built (package_name : String) (modules : List String) :
    required_dirs package_name modules = built_dirs package_name modules := rfl

/-- C4: a completed build passes `validate_structure` with no missing
file and no missing directory. -/
theorem build_then_validate (existing_dirs : List String) (project_name : String)
    (modules : List String) (d f : List String)
    (h : main_run existing_dirs project_name modules = .completed d f) :
    validate_structure f d project_name (to_snake_case project_name) modules =
      (true, []) := by
  obtain ⟨hd, hf⟩ := main_run_completed existing_dirs project_name modules d f h
  subst hd hf
  have hmf : ((required_files (to_snake_case project_name) modules).filter
      (fun p => !(decide (p ∈ built_files (to_snake_case project_name) modules) ||
        decide (p ∈ built_dirs (to_snake_case project_name) modules)))) = [] := by
    rw [List.filter_eq_nil_iff]
    intro p hp
    simp [required_files_subset _ _ p hp]
  have hmd : ((required_dirs (to_snake_case project_name) modules).filter
      (fun p => !(decide (p ∈ built_dirs (to_snake_case project_name) modules)))) = [] := by
    rw [List.filter_eq_nil_iff]
    intro p hp
    rw [required_dirs_eq_built] at hp
    simp [hp]
  simp only [validate_structure]
  rw [hmf, hmd]
  rfl

/-- C4 witness: the build of `My API` with module `auth` into an empty
directory validates with no missing entries. -/
theorem build_then_validate_witness :
    validate_structure (built_files (to_snake_case "My API") ["auth"])
      (built_dirs (to_snake_case "My API") ["auth"]) "My API"
      (to_snake_case "My API") ["auth"] = (true, []) :=
  build_then_validate [] "My API" ["auth"] _ _ (by decide)

/-- A Python value that may reach `validate_modules`: a string, an
integer, or `None` — enough to model the dynamic-typing behaviour of the
validator on non-text entries. -/
inductive PyVal where
  | pstr (s : String)
  | pint (n : Int)
  | pnone
deriving DecidableEq

/-- Python truthiness of the modelled values. -/
def py_truthy : PyVal → Bool
  | .pstr s => !(s == "")
  | .pint n => !(n == 0)
  | .pnone => false

/-- Python string formatting of the modelled values, as in the f-string
error messages. -/
def py_format : PyVal → String
  | .pstr s => s
  | .pint n => toString n
  | .pnone => "None"

/-- `validate_module_name` under dynamic typing: `if not module_name`
tests truthiness and short-circuits, so a falsy value of any type returns
the blank-name error; a truthy non-string then raises `AttributeError` at
`module_name.strip()`; a string proceeds as `validate_module_name`. -/
def validate_module_name_dyn (v : PyVal) : Except String (Bool × Option String) :=
  if py_truthy v = false then .ok (false, some "Module name cannot be empty")
  else
    match v with
    | .pstr s =>
      if py_strip s = "" then .ok (false, some "Module name cannot be empty")
      else .ok (validate_module_name s)
    | _ => .error "AttributeError"

/-- The loop of `validate_modules` under dynamic typing.  A non-string
entry reaching `to_snake_case` would raise `TypeError` inside `re.sub`;
that arm is unreachable because non-strings never validate. -/
def validate_modules_dyn_go (seen errors : List String) :
    List PyVal → Except String (List String)
  | [] => .ok errors
  | v :: vs =>
    match validate_module_name_dyn v with
    | .error e => .error e
    | .ok r =>
      if r.1 = false then
        validate_modules_dyn_go seen
          (errors ++ ["'" ++ py_format v ++ "': " ++ r.2.getD ""]) vs
      else
        match v with
        | .pstr s =>
          let snake_name := to_snake_case s
          if snake_name ∈ seen then
            validate_modules_dyn_go seen
              (errors ++ ["'" ++ s ++ "': Duplicate module name (converts to '" ++
                snake_name ++ "')"]) vs
          else validate_modules_dyn_go (seen ++ [snake_name]) errors vs
        | _ => .error "TypeError"

/-- `validate_modules` under dynamic typing: either a raised exception or
the returned pair. -/
def validate_modules_dyn (modules : List PyVal) : Except String (Bool × List String) :=
  match validate_modules_dyn_go [] [] modules with
  | .error e => .error e
  | .ok errors => .ok (errors.isEmpty, errors)

theorem validate_module_name_dyn_pstr (s : String) :
    validate_module_name_dyn (.pstr s) = .ok (validate_module_name s) := by
  by_cases h0 : s = ""
  · subst h0; rfl
  · have ht : py_truthy (.pstr s) = true := by simp [py_truthy, h0]
    rw [validate_module_name_dyn, if_neg (by rw [ht]; exact fun hc => absurd hc (by decide))]
    by_cases h1 : py_strip s = ""
    · rw [if_pos h1, validate_module_name, if_pos (by simp [h1])]
    · rw [if_neg h1]

theorem validate_modules_dyn_go_eq :
    ∀ (xs seen errors : List String),
      validate_modules_dyn_go seen errors (xs.map PyVal.pstr) =
        .ok (validate_modules_go seen errors xs) := by
  intro xs
  induction xs with
  | nil => intro seen errors; rfl
  | cons m ms ih =>
    intro seen errors
    rw [List.map_cons]
    simp only [validate_modules_dyn_go, validate_module_name_dyn_pstr, py_format,
      validate_modules_go]
    by_cases h1 : (validate_module_name m).1 = false
    · rw [if_pos h1, if_pos h1, ih]
    · rw [if_neg h1, if_neg h1]
      by_cases h2 : to_snake_case m ∈ seen
      · rw [if_pos h2, if_pos h2, ih]
      · rw [if_neg h2, if_neg h2, ih]

/-- C8 (amended): on every list of string entries — empty and
all-punctuation lists included — `validate_modules` raises nothing and
returns exactly the static result; falsy non-string entries are also
handled, but a truthy non-string raises. -/
theorem validate_modules_dyn_total (xs : List String) :
    validate_modules_dyn (xs.map PyVal.pstr) = .ok (validate_modules xs) := by
  simp only [validate_modules_dyn, validate_modules_dyn_go_eq xs [] []]
  rfl

/-- C8 counterexample: the truthy non-string entry `1` raises
`AttributeError` at `module_name.strip()`, so `validate_modules` is not
total on non-text entries. -/
theorem validate_modules_dyn_counterexample :
    validate_modules_dyn [PyVal.pint 1] = .error "AttributeError" := rfl
